import Mathlib

set_option maxRecDepth 8000

/-!
Verification of the prompt-construction, dataset-partitioning, precision-selection
and evaluation-extraction logic of the text-to-SQL fine-tuning repository
(src/script.py and src/test.py).  Strings are modelled as `List Char`;
Python's `str.format` is concatenation of the fixed template pieces with the
substituted fields.
-/

/-- Python `ord` 39, the ASCII apostrophe appearing in the instruction preamble. -/
def apos : Char := Char.ofNat 39

/-- The fixed instruction preamble of `user_prompt` (script.py lines 15-16):
everything of the template that precedes the `<SCHEMA>` block, including the
blank line separating the instruction sentence from the schema section. -/
def preamble : List Char :=
  "Given the <USER_QUERY> and the <SCHEMA>, generate the corresponding SQL command to retrieve the desired data, considering the query".data
    ++ [apos] ++ "s syntax, semantics, and schema constraints.\n\n".data

/-- The opening delimiter of the schema block as matched by the harness regex
`<SCHEMA>\n(.*?)\n</SCHEMA>` (script.py line 178): the tag followed by a newline. -/
def schemaOpenTag : List Char := "<SCHEMA>\n".data

/-- The closing delimiter of the schema block: a newline followed by the tag. -/
def schemaCloseTag : List Char := "\n</SCHEMA>".data

/-- The opening delimiter of the user-query block as matched by the regex
`<USER_QUERY>\n(.*?)\n</USER_QUERY>` (script.py line 179). -/
def queryOpenTag : List Char := "<USER_QUERY>\n".data

/-- The closing delimiter of the user-query block. -/
def queryCloseTag : List Char := "\n</USER_QUERY>".data

/-- The blank-line separator between `</SCHEMA>` and `<USER_QUERY>` in the template. -/
def sepMid : List Char := "\n\n".data

/-- The trailing newline of the template (the `"""` closes on its own line). -/
def finalNewline : List Char := "\n".data

/-- The bare schema tag, which also occurs (comma-terminated) in the preamble. -/
def schemaTagBare : List Char := "<SCHEMA>".data

/-- The bare user-query tag, which also occurs (space-terminated) in the preamble. -/
def queryTagBare : List Char := "<USER_QUERY>".data

/-- `user_prompt.format(question=..., context=...)` (script.py lines 15-24):
the fixed two-section template with `context` and `question` substituted. -/
def user_prompt (question context : List Char) : List Char :=
  preamble ++ schemaOpenTag ++ context ++ schemaCloseTag ++ sepMid
    ++ queryOpenTag ++ question ++ queryCloseTag ++ finalNewline

/-- A raw dataset record with its three text fields (spec section 3). -/
structure RawRecord where
  sql_prompt : List Char
  sql_context : List Char
  sql : List Char
deriving DecidableEq

/-- One conversation turn: a role tag and a content string. -/
structure Turn where
  role : List Char
  content : List Char
deriving DecidableEq

/-- `create_conversation` (script.py lines 25-32): builds the two-turn
conversation; the system turn is commented out in the source, so the result is
exactly a user turn holding the formatted prompt and an assistant turn holding
the `sql` field verbatim. -/
def create_conversation (sample : RawRecord) : List Turn :=
  [⟨"user".data, user_prompt sample.sql_prompt sample.sql_context⟩,
   ⟨"assistant".data, sample.sql⟩]

/-- The content of the user turn produced by the builder for a record. -/
def userContent (sample : RawRecord) : List Char :=
  user_prompt sample.sql_prompt sample.sql_context

/-- `test_sample["messages"][:2]` (script.py line 172): the turns handed to
`apply_chat_template` for prompt rendering are the first two turns of the
selected record's conversation. -/
def promptTurns (msgs : List Turn) : List Turn :=
  msgs.take 2

/-- The end-to-end scenario record of spec section 8. -/
def demoRecord : RawRecord :=
  ⟨"List all users older than 30".data,
   "CREATE TABLE users (id INT, age INT)".data,
   "SELECT * FROM users WHERE age > 30;".data⟩

/-- A small concrete pool of pairwise distinct records. -/
def sampleRecords : List RawRecord :=
  [⟨"q0".data, "c0".data, "s0".data⟩, ⟨"q1".data, "c1".data, "s1".data⟩,
   ⟨"q2".data, "c2".data, "s2".data⟩, ⟨"q3".data, "c3".data, "s3".data⟩]

/-- A permutation of the first three records of `sampleRecords`. -/
def samplePerm : List RawRecord :=
  [⟨"q1".data, "c1".data, "s1".data⟩, ⟨"q0".data, "c0".data, "s0".data⟩,
   ⟨"q2".data, "c2".data, "s2".data⟩]

/-- Python whitespace characters removed by `str.strip()`:
space, tab, newline, carriage return, vertical tab, form feed. -/
def isPySpace (ch : Char) : Bool :=
  ch = ' ' || ch = '\t' || ch = '\n' || ch = '\r' || ch = Char.ofNat 11 || ch = Char.ofNat 12

/-- Python `str.strip()`: drop leading and trailing whitespace. -/
def pyStrip (s : List Char) : List Char :=
  ((s.dropWhile isPySpace).reverse.dropWhile isPySpace).reverse

/-- Whether `pat` occurs as a contiguous substring of `s`. -/
def containsSubstr (pat : List Char) : List Char → Bool
  | [] => pat.isEmpty
  | c :: rest => pat.isPrefixOf (c :: rest) || containsSubstr pat rest

/-- The number of positions of `s` at which `pat` occurs. -/
def countSubstr (pat : List Char) : List Char → Nat
  | [] => 0
  | c :: rest => (if pat.isPrefixOf (c :: rest) then 1 else 0) + countSubstr pat rest

/-- Split `s` at the first (leftmost) occurrence of `pat`, returning the part
before the occurrence and the part after it; `none` when `pat` never occurs.
This is the primitive underlying the regex search semantics below. -/
def splitOnFirst (pat : List Char) : List Char → Option (List Char × List Char)
  | [] => none
  | c :: rest =>
    if pat.isPrefixOf (c :: rest) then some ([], (c :: rest).drop pat.length)
    else (splitOnFirst pat rest).map (fun pr => (c :: pr.1, pr.2))

/-- The capture group of Python's `re.search(opn + "(.*?)" + cls, s, re.DOTALL)`
for literal delimiters `opn`, `cls`: the text between the leftmost occurrence of
`opn` and the first occurrence of `cls` after it.  (If the leftmost `opn` has no
`cls` after it then no later `opn` has one either, so the whole search fails,
which is what this function returns.) -/
def extractBetween (opn cls s : List Char) : Option (List Char) :=
  match splitOnFirst opn s with
  | none => none
  | some pr =>
    match splitOnFirst cls pr.2 with
    | none => none
    | some qr => some qr.1

/-- The exception raised by `.group(1)` when `re.search` returned `None`. -/
def attributeErrorMsg : List Char :=
  "AttributeError: NoneType object has no attribute group".data

/-- Python `.group(1).strip()` applied to an optional regex match: a match is
stripped; an absent match makes `.group` raise `AttributeError` on `None`,
modelled as an error value. -/
def groupStrip (r : Option (List Char)) : Except (List Char) (List Char) :=
  match r with
  | none => Except.error attributeErrorMsg
  | some g => Except.ok (pyStrip g)

/-- One extraction step of the Evaluation Harness (script.py lines 178-179):
`re.search(opn + "(.*?)" + cls, content, re.DOTALL).group(1).strip()`. -/
def extractField (opn cls content : List Char) : Except (List Char) (List Char) :=
  groupStrip (extractBetween opn cls content)

/-- The two extractions the harness performs over the original user-turn
content before printing the report; an exception in either aborts the step. -/
def evalReport (content : List Char) : Except (List Char) (List Char × List Char) :=
  match extractField schemaOpenTag schemaCloseTag content with
  | Except.error e => Except.error e
  | Except.ok schema =>
    match extractField queryOpenTag queryCloseTag content with
    | Except.error e => Except.error e
    | Except.ok query => Except.ok (schema, query)

/-- Decidable equality for harness results, used to evaluate them on
concrete inputs. -/
instance : DecidableEq (Except (List Char) (List Char)) := fun x y =>
  match x, y with
  | Except.error a, Except.error b =>
    if h : a = b then isTrue (congrArg Except.error h)
    else isFalse (fun hc => h (by injection hc))
  | Except.ok a, Except.ok b =>
    if h : a = b then isTrue (congrArg Except.ok h)
    else isFalse (fun hc => h (by injection hc))
  | Except.error _, Except.ok _ => isFalse (fun hc => Except.noConfusion hc)
  | Except.ok _, Except.error _ => isFalse (fun hc => Except.noConfusion hc)

/-- Successive non-overlapping `opn`/`cls`-delimited blocks of `s`, scanning
left to right (fuelled recursion; the fuel only needs to dominate the number of
blocks, and `s.length` does). -/
def blocksGo (opn cls : List Char) : Nat → List Char → List (List Char)
  | 0, _ => []
  | fuel + 1, s =>
    match splitOnFirst opn s with
    | none => []
    | some pr =>
      match splitOnFirst cls pr.2 with
      | none => []
      | some qr => qr.1 :: blocksGo opn cls fuel qr.2

/-- All `opn`/`cls`-delimited blocks of `s`, left to right. -/
def blocks (opn cls s : List Char) : List (List Char) :=
  blocksGo opn cls s.length s

/-- `pat` does not occur at any position strictly before `a.length`
in the string `a ++ rest`. -/
def notOccursBefore (pat a rest : List Char) : Bool :=
  match a with
  | [] => true
  | x :: a' => !(pat.isPrefixOf (x :: (a' ++ rest))) && notOccursBefore pat a' rest

/-- Decidable sufficient condition, independent of what follows `a`: `pat`
does not occur inside `a`, and no nonempty suffix of `a` is a prefix of `pat`
(so no occurrence can start inside `a` and continue past its end). -/
def cleanBefore (pat : List Char) : List Char → Bool
  | [] => true
  | x :: a' => !(pat.isPrefixOf (x :: a')) && !((x :: a').isPrefixOf pat) && cleanBefore pat a'

/-- A sample exception text for a failing capability probe. -/
def probeErrMsg : List Char := "RuntimeError: no CUDA device found".data

/-- The precision policy values the program can select. -/
inductive Dtype where
  | float32
  | float16
  | bfloat16
deriving DecidableEq

/-- The Device/Precision Selector (src/test.py lines 4-17).  `cudaAvailable`
is the result of `torch.cuda.is_available()`; `probe` is the outcome of
`torch.cuda.get_device_capability()[0]`, an `Except` because the call may
raise.  The `try`/`except` of the source is the `match` on `probe`: an error is
caught, logged, and mapped to `float16`; it is never re-raised.  Returns the
selected dtype together with the printed log lines. -/
def selectDtype (cudaAvailable : Bool) (probe : Except (List Char) Nat) :
    Dtype × List (List Char) :=
  if cudaAvailable then
    match probe with
    | Except.ok cap =>
      if 8 ≤ cap then (Dtype.bfloat16, []) else (Dtype.float16, [])
    | Except.error e =>
      (Dtype.float16,
        ["Warning: Error checking CUDA capabilities: ".data ++ e,
         "Defaulting to float16".data])
  else
    (Dtype.float32, ["CUDA not available, using CPU with float32".data])

/-- The inline precision check of src/script.py lines 57-61: the capability
probe is performed with no availability guard and no `try`/`except`, so a
raised exception propagates to the caller unchanged. -/
def torch_dtype_script (probe : Except (List Char) Nat) : Except (List Char) Dtype :=
  match probe with
  | Except.ok cap => Except.ok (if 8 ≤ cap then Dtype.bfloat16 else Dtype.float16)
  | Except.error e => Except.error e

/-- The set of values Python's `random.randint(a, b)` can return: the integers
`N` with `a <= N <= b`, both endpoints included (script.py line 167 draws
`randint(0, len(dataset["test"]))`). -/
def randintSupport (a b : Nat) : Finset Nat := Finset.Icc a b

/-- The error the `datasets` library raises on an out-of-range index. -/
def indexErrorMsg : List Char :=
  "IndexError: index out of range for dataset".data

/-- `dataset.select(range k)` (script.py line 38) on a pool listed in shuffled
order: keeps the first `k` rows; an index beyond the dataset size makes the
`datasets` library raise an index error, it never clamps. -/
def selectRange (pool : List RawRecord) (k : Nat) : Except (List Char) (List RawRecord) :=
  if k ≤ pool.length then Except.ok (pool.take k)
  else Except.error indexErrorMsg

/-- The test-subset size computed by `train_test_split(test_size=num/den)`
(script.py line 43): the library rounds `n * num / den` up to the next integer
(sklearn-style ceiling), and the train size is the remainder `n - nTest`. -/
def nTest (n num den : Nat) : Nat := (n * num + (den - 1)) / den

/-- `train_test_split` (script.py line 43): the library draws a random
permutation of the `n` rows and assigns the first `nt` of it to the test
subset and the remaining rows to the train subset.  The permutation is the
`perm` argument; the result is `(train, test)`. -/
def train_test_split (perm : List RawRecord) (nt : Nat) : List RawRecord × List RawRecord :=
  (perm.drop nt, perm.take nt)

/-- The part of the rendered prompt that follows the schema block
(right-associated form used by the splitting lemmas). -/
def tailAfterSchemaBlock (question : List Char) : List Char :=
  sepMid ++ (queryOpenTag ++ (question ++ (queryCloseTag ++ finalNewline)))

/-- The part of the rendered prompt that follows the opening schema delimiter. -/
def tailAfterSchemaOpen (question context : List Char) : List Char :=
  context ++ (schemaCloseTag ++ tailAfterSchemaBlock question)

/-! ### Toolkit: occurrence and first-split lemmas -/

theorem splitOnFirst_self (pat b : List Char) (h : pat ≠ []) :
    splitOnFirst pat (pat ++ b) = some ([], b) := by
  cases pat with
  | nil => exact absurd rfl h
  | cons p pt =>
    have hpre : (p :: pt).isPrefixOf (p :: pt ++ b) = true :=
      List.isPrefixOf_iff_prefix.mpr (List.prefix_append _ _)
    simp only [List.cons_append] at hpre ⊢
    rw [splitOnFirst, if_pos hpre, ← List.cons_append, List.drop_left]

theorem splitOnFirst_shift (pat : List Char) :
    ∀ (a rest : List Char), notOccursBefore pat a rest = true →
      splitOnFirst pat (a ++ rest) =
        (splitOnFirst pat rest).map (fun pr => (a ++ pr.1, pr.2))
  | [], rest, _ => by
    cases h : splitOnFirst pat rest <;> simp [h]
  | x :: a', rest, h => by
    rw [notOccursBefore, Bool.and_eq_true, Bool.not_eq_true'] at h
    rw [List.cons_append, splitOnFirst, if_neg (by simp [h.1]),
      splitOnFirst_shift pat a' rest h.2]
    cases hs : splitOnFirst pat rest <;> simp [hs]

theorem notOccursBefore_of_cleanBefore (pat : List Char) :
    ∀ (a : List Char), cleanBefore pat a = true →
      ∀ rest, notOccursBefore pat a rest = true
  | [], _, _ => rfl
  | x :: a', h, rest => by
    simp only [cleanBefore, Bool.and_eq_true, Bool.not_eq_true'] at h
    obtain ⟨⟨hA, hB⟩, hC⟩ := h
    rw [notOccursBefore, Bool.and_eq_true, Bool.not_eq_true']
    refine ⟨?_, notOccursBefore_of_cleanBefore pat a' hC rest⟩
    rw [← List.cons_append]
    cases hc : pat.isPrefixOf ((x :: a') ++ rest) with
    | false => rfl
    | true =>
      exfalso
      have hc' := List.isPrefixOf_iff_prefix.mp hc
      rcases le_total pat.length (x :: a').length with hle | hle
      · have hp : pat <+: x :: a' :=
          List.prefix_of_prefix_length_le hc' (List.prefix_append _ _) (by simpa using hle)
        rw [List.isPrefixOf_iff_prefix.mpr hp] at hA
        cases hA
      · have hp : x :: a' <+: pat :=
          List.prefix_of_prefix_length_le (List.prefix_append _ _) hc' (by simpa using hle)
        rw [List.isPrefixOf_iff_prefix.mpr hp] at hB
        cases hB

theorem notOccursBefore_of_not_contains (pat : List Char) :
    ∀ (a rest : List Char), containsSubstr pat a = false →
      (∀ k, 0 < k → k < pat.length → (pat.drop k).isPrefixOf rest = false) →
      notOccursBefore pat a rest = true
  | [], _, _, _ => rfl
  | x :: a', rest, h1, h2 => by
    rw [containsSubstr, Bool.or_eq_false_iff] at h1
    rw [notOccursBefore, Bool.and_eq_true, Bool.not_eq_true']
    refine ⟨?_, notOccursBefore_of_not_contains pat a' rest h1.2 h2⟩
    rw [← List.cons_append]
    cases hc : pat.isPrefixOf ((x :: a') ++ rest) with
    | false => rfl
    | true =>
      exfalso
      have hc' := List.isPrefixOf_iff_prefix.mp hc
      rcases le_or_lt pat.length (x :: a').length with hle | hlt
      · have : pat <+: x :: a' :=
          List.prefix_of_prefix_length_le hc' (List.prefix_append _ _) (by simpa using hle)
        rw [List.isPrefixOf_iff_prefix.mpr this] at h1
        exact absurd h1.1 (by simp)
      · have hxa : x :: a' <+: pat :=
          List.prefix_of_prefix_length_le (List.prefix_append _ _) hc' (le_of_lt (by simpa using hlt))
        obtain ⟨t, ht⟩ := hxa
        have htake : pat.take (x :: a').length = x :: a' := by
          rw [← ht, List.take_left]
        have hdrop : (pat.drop (x :: a').length) <+: rest := by
          have hsplit : pat = pat.take (x :: a').length ++ pat.drop (x :: a').length :=
            (List.take_append_drop _ _).symm
          have : pat.take (x :: a').length ++ pat.drop (x :: a').length <+:
              pat.take (x :: a').length ++ rest := by
            rw [← hsplit, htake]; exact hc'
          exact (List.prefix_append_right_inj _).mp this
        have := h2 (x :: a').length (by simp) (by simpa using hlt)
        rw [List.isPrefixOf_iff_prefix.mpr hdrop] at this
        cases this

theorem notOccursBefore_append (pat : List Char) :
    ∀ (x y rest : List Char),
      notOccursBefore pat (x ++ y) rest =
        (notOccursBefore pat x (y ++ rest) && notOccursBefore pat y rest)
  | [], y, rest => by simp [notOccursBefore]
  | a :: x', y, rest => by
    simp only [List.cons_append, notOccursBefore, List.append_eq, List.append_assoc]
    rw [notOccursBefore_append pat x' y rest, Bool.and_assoc]

theorem isPrefixOf_append_of_le (p a b : List Char) (h : p.length ≤ a.length) :
    p.isPrefixOf (a ++ b) = p.isPrefixOf a := by
  cases hpa : p.isPrefixOf a with
  | true =>
    exact List.isPrefixOf_iff_prefix.mpr
      ((List.isPrefixOf_iff_prefix.mp hpa).trans (List.prefix_append a b))
  | false =>
    rw [Bool.eq_false_iff]
    intro hc
    have hp : p <+: a :=
      List.prefix_of_prefix_length_le (List.isPrefixOf_iff_prefix.mp hc)
        (List.prefix_append a b) (by simpa using h)
    rw [List.isPrefixOf_iff_prefix.mpr hp] at hpa
    cases hpa

theorem hcross_of_concrete (pat r1 r2 : List Char) (hlen : pat.length ≤ r1.length)
    (hall : ((List.range pat.length).all
      fun k => decide (k = 0) || !((pat.drop k).isPrefixOf r1)) = true) :
    ∀ k, 0 < k → k < pat.length → (pat.drop k).isPrefixOf (r1 ++ r2) = false := by
  intro k hk hk'
  have hmem := List.all_eq_true.mp hall k (List.mem_range.mpr hk')
  rw [Bool.or_eq_true, decide_eq_true_eq, Bool.not_eq_true'] at hmem
  have h1 : (pat.drop k).isPrefixOf r1 = false := by
    rcases hmem with h | h
    · omega
    · exact h
  rw [isPrefixOf_append_of_le _ _ _ (by
    rw [List.length_drop]; omega), h1]

theorem splitOnFirst_eq_none (pat : List Char) :
    ∀ s, containsSubstr pat s = false → splitOnFirst pat s = none
  | [], _ => rfl
  | c :: rest, h => by
    rw [containsSubstr, Bool.or_eq_false_iff] at h
    rw [splitOnFirst, if_neg (by simp [h.1]), splitOnFirst_eq_none pat rest h.2]
    rfl

theorem containsSubstr_append_false (pat : List Char) :
    ∀ (a rest : List Char), notOccursBefore pat a rest = true →
      containsSubstr pat rest = false → containsSubstr pat (a ++ rest) = false
  | [], _, _, h2 => h2
  | x :: a', rest, h1, h2 => by
    rw [notOccursBefore, Bool.and_eq_true, Bool.not_eq_true'] at h1
    rw [List.cons_append, containsSubstr, Bool.or_eq_false_iff]
    exact ⟨by simpa using h1.1, containsSubstr_append_false pat a' rest h1.2 h2⟩

theorem splitOnFirst_at (pat a b : List Char) (hp : pat ≠ [])
    (h : notOccursBefore pat a (pat ++ b) = true) :
    splitOnFirst pat (a ++ (pat ++ b)) = some (a, b) := by
  rw [splitOnFirst_shift pat a (pat ++ b) h, splitOnFirst_self pat b hp]
  simp

theorem blocksGo_of_none (opn cls : List Char) (fuel : Nat) (s : List Char)
    (h : splitOnFirst opn s = none) : blocksGo opn cls fuel s = [] := by
  cases fuel with
  | zero => rfl
  | succ n => simp [blocksGo, h]

theorem blocks_single (opn cls s a mid rest rest2 : List Char)
    (h0 : 0 < s.length)
    (h1 : splitOnFirst opn s = some (a, rest))
    (h2 : splitOnFirst cls rest = some (mid, rest2))
    (h3 : splitOnFirst opn rest2 = none) :
    blocks opn cls s = [mid] := by
  unfold blocks
  obtain ⟨n, hn⟩ : ∃ n, s.length = n + 1 := ⟨s.length - 1, by omega⟩
  rw [hn]
  simp [blocksGo, h1, h2, blocksGo_of_none opn cls n rest2 h3]

theorem le_countSubstr_append (pat : List Char) :
    ∀ (a b : List Char), countSubstr pat a + countSubstr pat b ≤ countSubstr pat (a ++ b)
  | [], b => by simp [countSubstr]
  | c :: a', b => by
    rw [List.cons_append, countSubstr, countSubstr]
    have IH := le_countSubstr_append pat a' b
    cases hp : pat.isPrefixOf (c :: a') with
    | false =>
      cases hq : pat.isPrefixOf (c :: (a' ++ b)) <;> simp <;> omega
    | true =>
      have hq : pat.isPrefixOf (c :: (a' ++ b)) = true := by
        rw [← List.cons_append]
        exact List.isPrefixOf_iff_prefix.mpr
          ((List.isPrefixOf_iff_prefix.mp hp).trans (List.prefix_append _ _))
      simp only [hq, if_true]
      omega

/-! ### Locating the delimiters in a rendered prompt -/

theorem user_prompt_assoc (question context : List Char) :
    user_prompt question context =
      preamble ++ (schemaOpenTag ++ tailAfterSchemaOpen question context) := by
  simp [user_prompt, tailAfterSchemaOpen, tailAfterSchemaBlock, List.append_assoc]

theorem split_schemaOpen (question context : List Char) :
    splitOnFirst schemaOpenTag (user_prompt question context) =
      some (preamble, tailAfterSchemaOpen question context) := by
  rw [user_prompt_assoc]
  exact splitOnFirst_at _ _ _ (by decide)
    (notOccursBefore_of_cleanBefore schemaOpenTag preamble (by decide) _)

theorem split_schemaClose (question context : List Char)
    (hc1 : containsSubstr schemaCloseTag context = false) :
    splitOnFirst schemaCloseTag (tailAfterSchemaOpen question context) =
      some (context, tailAfterSchemaBlock question) := by
  unfold tailAfterSchemaOpen
  refine splitOnFirst_at _ _ _ (by decide) ?_
  refine notOccursBefore_of_not_contains _ _ _ hc1 ?_
  exact hcross_of_concrete schemaCloseTag schemaCloseTag (tailAfterSchemaBlock question)
    (le_refl _) (by decide)

theorem split_queryOpen (question context : List Char)
    (hc2 : cleanBefore queryOpenTag context = true) :
    splitOnFirst queryOpenTag (user_prompt question context) =
      some (preamble ++ (schemaOpenTag ++ (context ++ (schemaCloseTag ++ sepMid))),
            question ++ (queryCloseTag ++ finalNewline)) := by
  have hassoc : user_prompt question context =
      (preamble ++ (schemaOpenTag ++ (context ++ (schemaCloseTag ++ sepMid)))) ++
        (queryOpenTag ++ (question ++ (queryCloseTag ++ finalNewline))) := by
    simp [user_prompt, List.append_assoc]
  rw [hassoc]
  refine splitOnFirst_at _ _ _ (by decide) ?_
  rw [notOccursBefore_append, notOccursBefore_append, notOccursBefore_append]
  simp only [Bool.and_eq_true]
  exact ⟨notOccursBefore_of_cleanBefore _ _ (by decide) _,
    notOccursBefore_of_cleanBefore _ _ (by decide) _,
    notOccursBefore_of_cleanBefore _ _ hc2 _,
    notOccursBefore_of_cleanBefore _ _ (by decide) _⟩

theorem split_queryClose (question : List Char)
    (hq1 : containsSubstr queryCloseTag question = false) :
    splitOnFirst queryCloseTag (question ++ (queryCloseTag ++ finalNewline)) =
      some (question, finalNewline) := by
  refine splitOnFirst_at _ _ _ (by decide) ?_
  refine notOccursBefore_of_not_contains _ _ _ hq1 ?_
  exact hcross_of_concrete queryCloseTag queryCloseTag finalNewline (le_refl _) (by decide)

theorem no_schemaOpen_in_tail (question : List Char)
    (hq2 : cleanBefore schemaOpenTag question = true) :
    splitOnFirst schemaOpenTag (tailAfterSchemaBlock question) = none := by
  unfold tailAfterSchemaBlock
  apply splitOnFirst_eq_none
  refine containsSubstr_append_false _ _ _
    (notOccursBefore_of_cleanBefore _ _ (by decide) _) ?_
  refine containsSubstr_append_false _ _ _
    (notOccursBefore_of_cleanBefore _ _ (by decide) _) ?_
  refine containsSubstr_append_false _ _ _
    (notOccursBefore_of_cleanBefore _ _ hq2 _) ?_
  decide

theorem userContent_length_pos (r : RawRecord) : 0 < (userContent r).length := by
  rw [userContent, user_prompt_assoc, List.length_append]
  have h : 0 < preamble.length := by decide
  omega

/-! ### Claim theorems -/

/-- C9: the Conversation Builder is a total, deterministic, pure function: for
every Raw Record it returns exactly two turns, the first with role `user` and
content equal to the Formatter applied to the record's fields, the second with
role `assistant` and content equal to the record's `sql` field verbatim, and
identical inputs always yield identical outputs. -/
theorem c9_builder_contract (r : RawRecord) :
    create_conversation r =
      [⟨"user".data, user_prompt r.sql_prompt r.sql_context⟩,
       ⟨"assistant".data, r.sql⟩] ∧
    (create_conversation r).length = 2 ∧
    (create_conversation r).map Turn.role = ["user".data, "assistant".data] ∧
    (∀ r' : RawRecord, r' = r → create_conversation r' = create_conversation r) :=
  ⟨rfl, rfl, rfl, fun _ h => by rw [h]⟩

/-- Witness for C9 at the end-to-end scenario record. -/
theorem c9_builder_contract_witness :
    (create_conversation demoRecord).length = 2 ∧
    create_conversation demoRecord = create_conversation demoRecord :=
  ⟨(c9_builder_contract demoRecord).2.1,
   (c9_builder_contract demoRecord).2.2.2 demoRecord rfl⟩

/-- C7: the Device/Precision Selector (src/test.py lines 4-17) maps the probe
outcome to the precision exactly as: no accelerator detected (regardless of the
probe) gives float32; accelerator present with major capability below 8 gives
float16; capability at or above 8 gives bfloat16. -/
theorem c7_precision_mapping (cap : Nat) :
    (selectDtype false (Except.ok cap)).1 = Dtype.float32 ∧
    (∀ e, (selectDtype false (Except.error e)).1 = Dtype.float32) ∧
    (cap < 8 → (selectDtype true (Except.ok cap)).1 = Dtype.float16) ∧
    (8 ≤ cap → (selectDtype true (Except.ok cap)).1 = Dtype.bfloat16) := by
  refine ⟨rfl, fun _ => rfl, fun h => ?_, fun h => ?_⟩
  · simp [selectDtype, Nat.not_le.mpr h]
  · simp [selectDtype, h]

/-- Witness for C7 at capabilities 7 and 8. -/
theorem c7_precision_mapping_witness :
    (selectDtype true (Except.ok 7)).1 = Dtype.float16 ∧
    (selectDtype true (Except.ok 8)).1 = Dtype.bfloat16 ∧
    (selectDtype false (Except.ok 7)).1 = Dtype.float32 :=
  ⟨(c7_precision_mapping 7).2.2.1 (by decide),
   (c7_precision_mapping 8).2.2.2 (by decide),
   (c7_precision_mapping 7).1⟩

/-- C3 (code bug): the inline selector of src/script.py lines 57-61 runs the
capability probe with no availability guard and no `try`/`except`, so a raised
probing exception propagates out of it and no precision value is produced —
whereas the guarded selector of src/test.py catches the same error and yields
float16 with a warning, which is what the claim (and the spec) require. -/
theorem c3_script_selector_propagates_probe_error :
    torch_dtype_script (Except.error probeErrMsg) = Except.error probeErrMsg ∧
    (∀ d : Dtype, torch_dtype_script (Except.error probeErrMsg) ≠ Except.ok d) ∧
    (selectDtype true (Except.error probeErrMsg)).1 = Dtype.float16 ∧
    ("Warning: Error checking CUDA capabilities: ".data ++ probeErrMsg) ∈
      (selectDtype true (Except.error probeErrMsg)).2 := by
  refine ⟨rfl, ?_, rfl, ?_⟩
  · intro d h
    simp [torch_dtype_script] at h
  · simp [selectDtype]

/-- C2 (code bug): `randint(0, len(dataset["test"]))` (script.py line 167)
draws from the inclusive range `[0, len]`, so with a test subset of length 2500
the endpoint 2500 is a possible draw; 2500 is not a valid index (`2500 < 2500`
fails) and indexing a 2500-element list at 2500 is out of bounds. -/
theorem c2_randint_inclusive_endpoint :
    2500 ∈ randintSupport 0 2500 ∧ ¬(2500 < 2500) ∧
    (List.replicate 2500 demoRecord)[2500]? = none := by
  refine ⟨?_, by omega, ?_⟩
  · rw [randintSupport, Finset.mem_Icc]
    omega
  · rw [List.getElem?_eq_none]
    simp

/-- C1 (code bug): the turns handed to `apply_chat_template`
(`messages[:2]`, script.py line 172) are the whole two-turn conversation,
including the assistant turn that carries the ground-truth SQL answer; the
non-assistant turns would be just the single user turn. -/
theorem c1_prompt_includes_assistant_turn :
    promptTurns (create_conversation demoRecord) = create_conversation demoRecord ∧
    (promptTurns (create_conversation demoRecord)).map Turn.role =
      ["user".data, "assistant".data] ∧
    (∃ t ∈ promptTurns (create_conversation demoRecord),
      t.role = "assistant".data ∧ t.content = demoRecord.sql) ∧
    ((create_conversation demoRecord).filter
        (fun t => t.role ≠ "assistant".data)).length = 1 := by
  refine ⟨rfl, rfl, ⟨⟨"assistant".data, demoRecord.sql⟩, ?_, rfl, rfl⟩, ?_⟩
  · simp [promptTurns, create_conversation, demoRecord]
  · decide

/-- C8: when the delimiter search over the user-turn content finds no match
for the schema pair or the query pair, the harness step raises (the
`AttributeError` from `.group(1)` on `None` propagates) and never produces
empty — or any — extracted fields. -/
theorem c8_extraction_failure_fatal (content : List Char)
    (h : extractBetween schemaOpenTag schemaCloseTag content = none ∨
         extractBetween queryOpenTag queryCloseTag content = none) :
    (∃ e, evalReport content = Except.error e) ∧
    (∀ v, evalReport content ≠ Except.ok v) := by
  have herr : ∃ e, evalReport content = Except.error e := by
    rcases h with h | h
    · exact ⟨attributeErrorMsg, by simp [evalReport, extractField, groupStrip, h]⟩
    · cases hs : extractBetween schemaOpenTag schemaCloseTag content with
      | none =>
        exact ⟨attributeErrorMsg, by simp [evalReport, extractField, groupStrip, hs]⟩
      | some g =>
        exact ⟨attributeErrorMsg, by simp [evalReport, extractField, groupStrip, hs, h]⟩
  obtain ⟨e, he⟩ := herr
  refine ⟨⟨e, he⟩, ?_⟩
  intro v hv
  rw [he] at hv
  cases hv

/-- Witness for C8 on content with no delimiters at all. -/
theorem c8_extraction_failure_fatal_witness :
    (∃ e, evalReport ("no delimiters here".data) = Except.error e) ∧
    (∀ v, evalReport ("no delimiters here".data) ≠ Except.ok v) :=
  c8_extraction_failure_fatal ("no delimiters here".data) (Or.inl (by decide))

/-- C10: the rendered prompt always starts with the fixed preamble, which
itself contains the bare `<SCHEMA>` and `<USER_QUERY>` tags, so each opening
tag occurs at least twice in every rendered prompt; the preamble occurrences
are not followed by a newline (the preamble contains neither `<SCHEMA>\n` nor
`<USER_QUERY>\n`), and the block opened by the extraction search is the
structural tag right after the preamble. -/
theorem c10_preamble_tag_occurrences (question context : List Char) :
    preamble <+: user_prompt question context ∧
    containsSubstr schemaTagBare preamble = true ∧
    containsSubstr queryTagBare preamble = true ∧
    2 ≤ countSubstr schemaTagBare (user_prompt question context) ∧
    2 ≤ countSubstr queryTagBare (user_prompt question context) ∧
    containsSubstr schemaOpenTag preamble = false ∧
    containsSubstr queryOpenTag preamble = false ∧
    splitOnFirst schemaOpenTag (user_prompt question context) =
      some (preamble, tailAfterSchemaOpen question context) := by
  refine ⟨?_, by decide, by decide, ?_, ?_, by decide, by decide,
    split_schemaOpen question context⟩
  · rw [user_prompt_assoc]
    exact List.prefix_append _ _
  · rw [user_prompt_assoc]
    have h1 := le_countSubstr_append schemaTagBare preamble
      (schemaOpenTag ++ tailAfterSchemaOpen question context)
    have h2 := le_countSubstr_append schemaTagBare schemaOpenTag
      (tailAfterSchemaOpen question context)
    have e1 : countSubstr schemaTagBare preamble = 1 := by decide
    have e2 : countSubstr schemaTagBare schemaOpenTag = 1 := by decide
    omega
  · rw [user_prompt_assoc]
    have h1 := le_countSubstr_append queryTagBare preamble
      (schemaOpenTag ++ tailAfterSchemaOpen question context)
    have h2 := le_countSubstr_append queryTagBare schemaOpenTag
      (tailAfterSchemaOpen question context)
    have h3 := le_countSubstr_append queryTagBare context
      (schemaCloseTag ++ tailAfterSchemaBlock question)
    have h4 := le_countSubstr_append queryTagBare schemaCloseTag
      (tailAfterSchemaBlock question)
    have h5 := le_countSubstr_append queryTagBare sepMid
      (queryOpenTag ++ (question ++ (queryCloseTag ++ finalNewline)))
    have h6 := le_countSubstr_append queryTagBare queryOpenTag
      (question ++ (queryCloseTag ++ finalNewline))
    have e1 : countSubstr queryTagBare preamble = 1 := by decide
    have e2 : countSubstr queryTagBare queryOpenTag = 1 := by decide
    simp only [tailAfterSchemaOpen, tailAfterSchemaBlock] at h1 h2 h3 h4 ⊢
    omega

/-- C6: for the shuffled pool, `select(range k)` keeps exactly the first `k`
rows when `k` is within range and raises otherwise; the split of the permuted
`k`-subsample into `(train, test)` has sizes summing to `k`, the two parts are
disjoint and both drawn from the `k`-subsample; and with `n = 12500`,
`test_size = 2500/12500` the sizes are 2500 and 10000. -/
theorem c6_partitioner (pool perm : List RawRecord) (k num den : Nat)
    (hk : k ≤ pool.length) (hnd : pool.Nodup)
    (hperm : List.Perm perm (pool.take k)) :
    selectRange pool k = Except.ok (pool.take k) ∧
    (∀ j, pool.length < j → selectRange pool j = Except.error indexErrorMsg) ∧
    (train_test_split perm (nTest k num den)).1.length +
      (train_test_split perm (nTest k num den)).2.length = k ∧
    (∀ x, x ∈ (train_test_split perm (nTest k num den)).1 →
      x ∉ (train_test_split perm (nTest k num den)).2) ∧
    (∀ x, x ∈ (train_test_split perm (nTest k num den)).1 → x ∈ pool.take k) ∧
    (∀ x, x ∈ (train_test_split perm (nTest k num den)).2 → x ∈ pool.take k) ∧
    nTest 12500 1 5 = 2500 ∧
    (∀ p2 : List RawRecord, p2.length = 12500 →
      (train_test_split p2 (nTest 12500 1 5)).2.length = 2500 ∧
      (train_test_split p2 (nTest 12500 1 5)).1.length = 10000) := by
  have hlen : perm.length = k := by
    rw [hperm.length_eq, List.length_take]
    omega
  have hnodup : perm.Nodup :=
    (hperm.nodup_iff).mpr (hnd.sublist (List.take_sublist k pool))
  have hnt : nTest 12500 1 5 = 2500 := by decide
  refine ⟨?_, ?_, ?_, ?_, ?_, ?_, hnt, ?_⟩
  · rw [selectRange, if_pos hk]
  · intro j hj
    rw [selectRange, if_neg (by omega)]
  · show (perm.drop (nTest k num den)).length + (perm.take (nTest k num den)).length = k
    rw [List.length_drop, List.length_take]
    omega
  · intro x hx1 hx2
    exact (List.disjoint_take_drop hnodup (le_refl (nTest k num den))) hx2 hx1
  · intro x hx
    exact hperm.mem_iff.mp (List.drop_subset (nTest k num den) perm hx)
  · intro x hx
    exact hperm.mem_iff.mp (List.take_subset (nTest k num den) perm hx)
  · intro p2 hp2
    constructor
    · show (p2.take (nTest 12500 1 5)).length = 2500
      rw [hnt, List.length_take, hp2]
      omega
    · show (p2.drop (nTest 12500 1 5)).length = 10000
      rw [hnt, List.length_drop, hp2]

/-- Witness for C6 on a four-record pool, subsample size 3, fraction 1/5. -/
theorem c6_partitioner_witness :
    selectRange sampleRecords 3 = Except.ok (sampleRecords.take 3) ∧
    (train_test_split samplePerm (nTest 3 1 5)).1.length +
      (train_test_split samplePerm (nTest 3 1 5)).2.length = 3 :=
  ⟨(c6_partitioner sampleRecords samplePerm 3 1 5 (by decide) (by decide) (by decide)).1,
   (c6_partitioner sampleRecords samplePerm 3 1 5
      (by decide) (by decide) (by decide)).2.2.1⟩

/-- C4 (amended): the round-trip holds for every Raw Record whose context
contains no occurrence of the schema closing delimiter and no dangling
occurrence of the query opening delimiter, whose question contains no
occurrence of the query closing delimiter, and whose context and question are
already whitespace-trimmed: the harness extraction applied to the builder's
user-turn content returns `sql_context` and `sql_prompt` exactly. -/
theorem c4_roundtrip_amended (r : RawRecord)
    (hc1 : containsSubstr schemaCloseTag r.sql_context = false)
    (hc2 : cleanBefore queryOpenTag r.sql_context = true)
    (hq1 : containsSubstr queryCloseTag r.sql_prompt = false)
    (hcs : pyStrip r.sql_context = r.sql_context)
    (hqs : pyStrip r.sql_prompt = r.sql_prompt) :
    extractField schemaOpenTag schemaCloseTag (userContent r) =
      Except.ok r.sql_context ∧
    extractField queryOpenTag queryCloseTag (userContent r) =
      Except.ok r.sql_prompt := by
  have h1 : extractBetween schemaOpenTag schemaCloseTag (userContent r) =
      some r.sql_context := by
    simp only [userContent, extractBetween, split_schemaOpen,
      split_schemaClose _ _ hc1]
  have h2 : extractBetween queryOpenTag queryCloseTag (userContent r) =
      some r.sql_prompt := by
    simp only [userContent, extractBetween, split_queryOpen _ _ hc2,
      split_queryClose _ hq1]
  constructor
  · rw [extractField, h1, groupStrip, hcs]
  · rw [extractField, h2, groupStrip, hqs]

/-- C4 counterexample: for the record with context `" x"` (leading space) the
extraction returns the stripped text `"x"`, not the original context, so the
claimed round-trip fails for this Raw Record. -/
theorem c4_roundtrip_counterexample :
    extractField schemaOpenTag schemaCloseTag
        (userContent ⟨("q".data), (" x".data), ("s".data)⟩) ≠
      Except.ok (" x".data) ∧
    extractField schemaOpenTag schemaCloseTag
        (userContent ⟨("q".data), (" x".data), ("s".data)⟩) =
      Except.ok ("x".data) := by
  constructor
  · decide
  · decide

/-- Witness for C4 (amended) at the end-to-end scenario record. -/
theorem c4_roundtrip_amended_witness :
    extractField schemaOpenTag schemaCloseTag (userContent demoRecord) =
      Except.ok demoRecord.sql_context ∧
    extractField queryOpenTag queryCloseTag (userContent demoRecord) =
      Except.ok demoRecord.sql_prompt :=
  c4_roundtrip_amended demoRecord (by decide) (by decide) (by decide)
    (by decide) (by decide)

/-- C5 (amended): for every Raw Record whose context contains no occurrence of
the schema closing delimiter and no dangling occurrence of the query opening
delimiter, and whose question contains no occurrence of the query closing
delimiter and no dangling occurrence of the schema opening delimiter, the
Formatter's output contains exactly one schema block — with content exactly
`sql_context` — and exactly one user-query block — with content exactly
`sql_prompt` (hence equal to the trimmed inputs once trimmed). -/
theorem c5_formatter_blocks_amended (r : RawRecord)
    (hc1 : containsSubstr schemaCloseTag r.sql_context = false)
    (hc2 : cleanBefore queryOpenTag r.sql_context = true)
    (hq1 : containsSubstr queryCloseTag r.sql_prompt = false)
    (hq2 : cleanBefore schemaOpenTag r.sql_prompt = true) :
    blocks schemaOpenTag schemaCloseTag (userContent r) = [r.sql_context] ∧
    blocks queryOpenTag queryCloseTag (userContent r) = [r.sql_prompt] ∧
    (blocks schemaOpenTag schemaCloseTag (userContent r)).map pyStrip =
      [pyStrip r.sql_context] ∧
    (blocks queryOpenTag queryCloseTag (userContent r)).map pyStrip =
      [pyStrip r.sql_prompt] := by
  have hs : blocks schemaOpenTag schemaCloseTag (userContent r) = [r.sql_context] :=
    blocks_single _ _ _ _ _ _ _ (userContent_length_pos r)
      (by rw [userContent]; exact split_schemaOpen _ _)
      (split_schemaClose _ _ hc1)
      (no_schemaOpen_in_tail _ hq2)
  have hq : blocks queryOpenTag queryCloseTag (userContent r) = [r.sql_prompt] :=
    blocks_single _ _ _ _ _ _ _ (userContent_length_pos r)
      (by rw [userContent]; exact split_queryOpen _ _ hc2)
      (split_queryClose _ hq1)
      (by decide)
  exact ⟨hs, hq, by rw [hs]; rfl, by rw [hq]; rfl⟩

/-- C5 counterexample: a context that itself contains the closing and opening
schema delimiters makes the Formatter's output contain two schema blocks,
neither with the full context as content, so the universal claim fails. -/
theorem c5_formatter_blocks_counterexample :
    (blocks schemaOpenTag schemaCloseTag
        (userContent ⟨("q".data), ("A\n</SCHEMA>\n\n<SCHEMA>\nB".data), ("s".data)⟩)).map
        pyStrip ≠
      [pyStrip ("A\n</SCHEMA>\n\n<SCHEMA>\nB".data)] := by
  decide

/-- Witness for C5 (amended) at the end-to-end scenario record. -/
theorem c5_formatter_blocks_amended_witness :
    blocks schemaOpenTag schemaCloseTag (userContent demoRecord) =
      [demoRecord.sql_context] ∧
    blocks queryOpenTag queryCloseTag (userContent demoRecord) =
      [demoRecord.sql_prompt] :=
  ⟨(c5_formatter_blocks_amended demoRecord (by decide) (by decide) (by decide)
      (by decide)).1,
   (c5_formatter_blocks_amended demoRecord (by decide) (by decide) (by decide)
      (by decide)).2.1⟩
